import Mathlib

/-!
Verification development for the ZeroTTS session/state-management core
(`src/main.py`): the sliding-window rate limiter (`RateLimiter`), the
TTL-bounded per-user preference store (`UserDataStore`), the two timed
caches (voice catalog in `get_voices_cached`, quota in
`check_quota_remaining_chars`), and the catalog partition/sort built in
`send_welcome`.

Modelling conventions:
* Timestamps (`datetime.now()` / `time.time()`) are modelled as `Int`
  seconds; the properties under study use whole seconds only.
* Python dicts keyed by user id or voice id are modelled either as
  association lists (where iteration order matters) or as functions
  `key → Option value` updated with `Function.update`.
* Network calls are modelled by passing the outcome of the call as an
  argument (`Except` for a call that may raise, a dedicated inductive for
  the quota HTTP response); each cache function also returns a `Bool`
  recording whether the external call was actually performed.
* Python string lowering is `String.toLower` (ASCII case folding); the
  labels exercised by the properties are ASCII or already-lowercase
  Cyrillic, where the two agree. String comparison in sort keys is by
  code point, as in Python, modelled as `List ℕ` of code points.
-/

namespace ZeroTTS

/-! ## Sliding-window rate limiter (`RateLimiter`, main.py lines 137-174) -/

/-- State of `RateLimiter`: configuration plus the per-user timestamp
lists held in `self._requests` (a `defaultdict(list)`, so a missing user
reads as `[]`). -/
structure RateLimiter where
  maxRequests : Nat
  window : Int
  requests : Int → List Int

/-- A fresh limiter, as built by `RateLimiter.__init__`. -/
def RateLimiter.init (maxRequests : Nat) (windowSeconds : Int) : RateLimiter :=
  { maxRequests := maxRequests, window := windowSeconds, requests := fun _ => [] }

/-- Models `RateLimiter.is_allowed(user_id)` at time `now`: prune the user's
timestamps to those strictly newer than `now - window`, store the pruned
list back, reject without recording when the count has reached
`max_requests`, otherwise record `now` and accept. -/
def RateLimiter.isAllowed (rl : RateLimiter) (now : Int) (userId : Int) :
    Bool × RateLimiter :=
  let pruned := (rl.requests userId).filter (fun t => decide (now - rl.window < t))
  if rl.maxRequests ≤ pruned.length then
    (false, { rl with requests := Function.update rl.requests userId pruned })
  else
    (true, { rl with requests := Function.update rl.requests userId (pruned ++ [now]) })

/-- Run a sequence of `is_allowed` calls for one user at the given times,
collecting the results. -/
def RateLimiter.runCalls (rl : RateLimiter) (userId : Int) :
    List Int → List Bool × RateLimiter
  | [] => ([], rl)
  | t :: ts =>
    let step := rl.isAllowed t userId
    let rest := step.2.runCalls userId ts
    (step.1 :: rest.1, rest.2)

/-! ## Quota cache (`check_quota_remaining_chars`, main.py lines 341-387) -/

/-- Outcome of the HTTP GET to the ElevenLabs user endpoint: either the
client raised (network error), or a response arrived with a status code
and the two subscription fields, each present as an `int` or not
(`data.get(...)` missing or non-integer). -/
inductive QuotaResp where
  | raised : QuotaResp
  | resp (status : Nat) (characterLimit : Option Int) (characterCount : Option Int) : QuotaResp

/-- Constant `_QUOTA_CACHE_TTL = 300` (5 minutes). -/
def QUOTA_CACHE_TTL : Int := 300

/-- Models `check_quota_remaining_chars()` at time `now`, with `_quota_cache`
passed in and returned explicitly. Returns (result, new cache state,
whether the HTTP request was performed). The cache is only ever written
with an integer remaining value; `None` results are returned without
caching, and exceptions are caught and turned into `None`. -/
def check_quota_remaining_chars (cache : Option (Int × Int)) (now : Int)
    (hasApiKey : Bool) (fetch : QuotaResp) : Option Int × Option (Int × Int) × Bool :=
  match cache with
  | some (cacheTime, cachedValue) =>
    if now - cacheTime < QUOTA_CACHE_TTL then
      (some cachedValue, some (cacheTime, cachedValue), false)
    else
      check_quota_fresh cache now hasApiKey fetch
  | none => check_quota_fresh cache now hasApiKey fetch
where
  /-- The fresh-fetch path (the `try` block of the source). -/
  check_quota_fresh (cache : Option (Int × Int)) (now : Int)
      (hasApiKey : Bool) (fetch : QuotaResp) : Option Int × Option (Int × Int) × Bool :=
    if !hasApiKey then
      (none, cache, false)
    else
      match fetch with
      | .raised => (none, cache, true)
      | .resp status limit_ used_ =>
        if status ≠ 200 then
          (none, cache, true)
        else
          match limit_, used_ with
          | some l, some u =>
            let remaining := max 0 (l - u)
            (some remaining, some (now, remaining), true)
          | some _, none => (none, cache, true)
          | none, some _ => (none, cache, true)
          | none, none => (none, cache, true)

/-! ## Voice catalog cache (`get_voices_cached`, main.py lines 406-421) -/

/-- Constant `VOICE_CACHE_TTL_SECONDS = 3600` (1 hour). -/
def VOICE_CACHE_TTL_SECONDS : Int := 3600

/-- Models `get_voices_cached()` at time `now`, with `_voices_cache` passed in
and returned explicitly and the outcome of `get_all_voices()` passed as
`fetch`. A raised fetch propagates (`Except.error`) and, because the
cache assignment follows the call, leaves the cache untouched. Returns
(result, new cache state, whether `get_all_voices` was invoked). -/
def get_voices_cached {α ε : Type} (cache : Option (Int × α)) (now : Int)
    (fetch : Except ε α) : Except ε α × Option (Int × α) × Bool :=
  match cache with
  | some (cacheTime, cachedVoices) =>
    if now - cacheTime < VOICE_CACHE_TTL_SECONDS then
      (Except.ok cachedVoices, some (cacheTime, cachedVoices), false)
    else
      match fetch with
      | .ok v => (Except.ok v, some (now, v), true)
      | .error e => (Except.error e, some (cacheTime, cachedVoices), true)
  | none =>
    match fetch with
    | .ok v => (Except.ok v, some (now, v), true)
    | .error e => (Except.error e, none, true)

/-! ## TTL-bounded user data store (`UserDataStore`, main.py lines 177-214) -/

/-- Lookup in an association list modelling a Python dict
(`d.get(key)`). -/
def alistGet {κ ν : Type} [DecidableEq κ] (l : List (κ × ν)) (key : κ) : Option ν :=
  (l.find? (fun p => p.1 = key)).map (fun p => p.2)

/-- Insertion into an association list modelling `d[key] = value`: an
existing key is overwritten in place (Python dicts keep the original
insertion position), a new key is appended. -/
def alistPut {κ ν : Type} [DecidableEq κ] (l : List (κ × ν)) (key : κ) (value : ν) :
    List (κ × ν) :=
  if (l.find? (fun p => p.1 = key)).isSome then
    l.map (fun p => if p.1 = key then (key, value) else p)
  else
    l ++ [(key, value)]

/-- State of `UserDataStore`: `self._data` (user id → preference dict),
`self._last_access` (user id → last access time), and the configured
`ttl`. Preference values are kept generic in `ν`. -/
structure UserDataStore (ν : Type) where
  data : List (Int × List (String × ν))
  lastAccess : List (Int × Int)
  ttl : Int

/-- A fresh store, as built by `UserDataStore.__init__`. -/
def UserDataStore.init (ν : Type) (ttlSeconds : Int) : UserDataStore ν :=
  { data := [], lastAccess := [], ttl := ttlSeconds }

/-- Models `UserDataStore._cleanup()` at time `now`: every user whose
`last_access` lies more than `ttl` seconds in the past is removed from
both `_data` and `_last_access`. -/
def UserDataStore.cleanup {ν : Type} (s : UserDataStore ν) (now : Int) :
    UserDataStore ν :=
  let expired := (s.lastAccess.filter (fun p => decide (s.ttl < now - p.2))).map (fun p => p.1)
  { s with
    data := s.data.filter (fun p => !expired.contains p.1),
    lastAccess := s.lastAccess.filter (fun p => !expired.contains p.1) }

/-- Models `UserDataStore.get(user_id, key, default)` at time `now`: cleanup,
refresh the user's `last_access`, and return
`self._data.get(user_id, {}).get(key, default)`. -/
def UserDataStore.get {ν : Type} (s : UserDataStore ν) (now : Int) (userId : Int)
    (key : String) (default : ν) : ν × UserDataStore ν :=
  let s1 := s.cleanup now
  let s2 := { s1 with lastAccess := alistPut s1.lastAccess userId now }
  ((alistGet ((alistGet s2.data userId).getD []) key).getD default, s2)

/-- Models `UserDataStore.set(user_id, key, value)` at time `now`: cleanup,
create the user's record if absent, store the key/value, refresh
`last_access`. -/
def UserDataStore.set {ν : Type} (s : UserDataStore ν) (now : Int) (userId : Int)
    (key : String) (value : ν) : UserDataStore ν :=
  let s1 := s.cleanup now
  let s2 :=
    if (alistGet s1.data userId).isSome then s1
    else { s1 with data := s1.data ++ [(userId, [])] }
  { s2 with
    data := alistPut s2.data userId (alistPut ((alistGet s2.data userId).getD []) key value),
    lastAccess := alistPut s2.lastAccess userId now }

/-! ## Catalog indexer (`send_welcome`, main.py lines 432-474, and the
global maps of lines 228-230) -/

/-- One element of `voices_response.voices` with the attributes the
indexer reads: `labels.get("gender")` (possibly absent), the language
label, the name, and `voice_id` (possibly absent; an empty id is falsy
in Python and also skipped). -/
structure VoiceRecord where
  name : String
  voice_id : Option String
  language : String
  gender : Option String
  deriving DecidableEq

/-- Python's `sub in s` on strings: contiguous-substring containment,
over the code-point lists. -/
def strIn (sub : List Char) : List Char → Bool
  | [] => sub.isEmpty
  | c :: rest => sub.isPrefixOf (c :: rest) || strIn sub rest

/-- Python's `s.lower()` at the code-point level (`String.toLower` is not
used because its `mapAux` recursion does not reduce in the kernel). -/
def lowerData (s : String) : List Char := s.data.map Char.toLower

/-- Check `if not vid: continue` — a record participates only when its
`voice_id` is present and non-empty. -/
def VoiceRecord.vidOk (r : VoiceRecord) : Bool :=
  match r.voice_id with
  | none => false
  | some v => !(v = "")

/-- Predicate `"female" in (gender or "").lower()` — the partition predicate
(checked first; `"male" in g` and the unknown-gender default both land in
the male bucket). -/
def VoiceRecord.isFemale (r : VoiceRecord) : Bool :=
  strIn "female".data (lowerData (r.gender.getD ""))

/-- Function `lang_priority` from `send_welcome` (identical to
`VoiceInfo.lang_priority`): 0 for Russian labels, 1 for labels containing
"multi", 2 otherwise. -/
def lang_priority (lang : String) : Nat :=
  let l := lowerData lang
  if l = "ru".data ∨ l = "russian".data ∨ l = "русский".data then 0
  else if strIn "multi".data l then 1
  else 2

/-- Function `sort_key` from `send_welcome` on a `(name, voice_id, language)`
triple: `(lang_priority(lang), name.lower())`, the lowered name viewed as
its code points (Python compares strings by code point). -/
def sort_key (item : String × String × String) : Nat × List Nat :=
  (lang_priority item.2.2, (lowerData item.1).map Char.toNat)

/-- Python's ascending comparison on the `sort_key` tuples: lexicographic
on (priority, lowered name as code points). -/
def keyLe (a b : String × String × String) : Bool :=
  decide ((sort_key a).1 < (sort_key b).1 ∨
    ((sort_key a).1 = (sort_key b).1 ∧ (sort_key a).2 ≤ (sort_key b).2))

/-- The `temp_female` list built by the partition loop, in input order:
records with a usable id whose gender label contains "female". -/
def temp_female (records : List VoiceRecord) : List (String × String × String) :=
  (records.filter (fun r => r.vidOk && r.isFemale)).map
    (fun r => (r.name, r.voice_id.getD "", r.language))

/-- The `temp_male` list built by the partition loop, in input order:
records with a usable id and any other gender label (including absent or
unrecognized — never dropped). -/
def temp_male (records : List VoiceRecord) : List (String × String × String) :=
  (records.filter (fun r => r.vidOk && !r.isFemale)).map
    (fun r => (r.name, r.voice_id.getD "", r.language))

/-- A sorted bucket: Python's `list.sort(key=sort_key)` is a stable sort
by the key tuple, modelled by the stable `List.mergeSort` under `keyLe`,
then projected to `(name, voice_id)` as stored in `category_to_voices`. -/
def bucket (pre : List (String × String × String)) : List (String × String) :=
  (pre.mergeSort keyLe).map (fun item => (item.1, item.2.1))

/-- The catalog index: `category_to_voices` buckets plus the reverse maps
`voice_id_to_name` and `voice_id_to_lang`. -/
structure CatalogState where
  male : List (String × String)
  female : List (String × String)
  idToName : String → Option String
  idToLang : String → Option String

/-- The initial state of the module-level maps (lines 228-230). -/
def CatalogState.init : CatalogState :=
  { male := [], female := [], idToName := fun _ => none, idToLang := fun _ => none }

/-- One loop step of the reverse-map maintenance:
`voice_id_to_name[vid] = name; voice_id_to_lang[vid] = language_label`,
performed for every record that passes the `if not vid: continue`
check. -/
def updateMaps (m : (String → Option String) × (String → Option String))
    (r : VoiceRecord) : (String → Option String) × (String → Option String) :=
  if r.vidOk then
    (Function.update m.1 (r.voice_id.getD "") (some r.name),
     Function.update m.2 (r.voice_id.getD "") (some r.language))
  else m

/-- The index rebuild performed by `send_welcome` on a catalog refresh:
the two buckets are cleared and rebuilt from the fresh records only,
while `voice_id_to_name` / `voice_id_to_lang` receive an update per
fetched id without being cleared first. -/
def rebuildIndex (s : CatalogState) (records : List VoiceRecord) : CatalogState :=
  let maps := records.foldl updateMaps (s.idToName, s.idToLang)
  { male := bucket (temp_male records),
    female := bucket (temp_female records),
    idToName := maps.1,
    idToLang := maps.2 }

/-! ## Concrete fixtures used by witnesses and counterexamples -/

/-- A store holding one preference for user 1, last accessed at time 0,
with the production TTL of 86400 seconds. -/
def c2Store : UserDataStore String :=
  { data := [(1, [("voice_id", "v1")])], lastAccess := [(1, 0)], ttl := 86400 }

/-- The spec's example records. -/
def recAnna : VoiceRecord := ⟨"Anna", some "1", "ru", some "female"⟩

def recIvan : VoiceRecord := ⟨"Ivan", some "2", "multi", some "male"⟩

def recBen : VoiceRecord := ⟨"Ben", some "3", "en", some "male"⟩

/-- Two Russian-language female voices for the tie-break example. -/
def recZoe : VoiceRecord := ⟨"Zoe", some "4", "ru", some "female"⟩

def recAnnaLower : VoiceRecord := ⟨"anna", some "5", "ru", some "female"⟩

/-- A record with an empty gender label. -/
def recNoGender : VoiceRecord := ⟨"X", some "9", "en", some ""⟩

/-- A record with no voice id. -/
def recNoId : VoiceRecord := ⟨"NoId", none, "en", some "male"⟩

/-! ## Rate limiter lemmas -/

theorem RateLimiter.isAllowed_maxRequests (rl : RateLimiter) (now userId : Int) :
    ((rl.isAllowed now userId).2).maxRequests = rl.maxRequests := by
  simp only [RateLimiter.isAllowed]
  split <;> rfl

theorem RateLimiter.isAllowed_window (rl : RateLimiter) (now userId : Int) :
    ((rl.isAllowed now userId).2).window = rl.window := by
  simp only [RateLimiter.isAllowed]
  split <;> rfl

/-- When nothing gets pruned and the limit is not yet reached, a call is
accepted and simply appends its timestamp. -/
theorem RateLimiter.isAllowed_accept (rl : RateLimiter) (now userId : Int)
    (hkeep : ∀ x ∈ rl.requests userId, now - rl.window < x)
    (hlen : (rl.requests userId).length < rl.maxRequests) :
    rl.isAllowed now userId =
      (true, { rl with requests :=
        Function.update rl.requests userId (rl.requests userId ++ [now]) }) := by
  have hfilter : (rl.requests userId).filter (fun t => decide (now - rl.window < t))
      = rl.requests userId :=
    List.filter_eq_self.mpr (fun a ha => decide_eq_true (hkeep a ha))
  simp only [RateLimiter.isAllowed, hfilter]
  rw [if_neg (by omega)]

/-- When nothing gets pruned and the limit is reached, a call is rejected
and the stored list is unchanged. -/
theorem RateLimiter.isAllowed_reject (rl : RateLimiter) (now userId : Int)
    (hkeep : ∀ x ∈ rl.requests userId, now - rl.window < x)
    (hlen : rl.maxRequests ≤ (rl.requests userId).length) :
    rl.isAllowed now userId = (false, rl) := by
  have hfilter : (rl.requests userId).filter (fun t => decide (now - rl.window < t))
      = rl.requests userId :=
    List.filter_eq_self.mpr (fun a ha => decide_eq_true (hkeep a ha))
  simp only [RateLimiter.isAllowed, hfilter]
  rw [if_pos hlen, Function.update_eq_self]

/-- When everything gets pruned and the limit is positive, a call is
accepted. -/
theorem RateLimiter.isAllowed_true_of_prune_nil (rl : RateLimiter) (now userId : Int)
    (hprune : (rl.requests userId).filter (fun s => decide (now - rl.window < s)) = [])
    (hmax : 0 < rl.maxRequests) :
    (rl.isAllowed now userId).1 = true := by
  simp only [RateLimiter.isAllowed, hprune]
  rw [if_neg (by simp; omega)]

/-- A run of calls during which no timestamp ever falls out of the window
and the limit is never reached: every call is accepted and the stored
list accumulates exactly the call times. -/
theorem RateLimiter.runCalls_no_prune (userId : Int) :
    ∀ (ts : List Int) (rl : RateLimiter),
      (∀ s ∈ ts, ∀ x ∈ rl.requests userId, s - rl.window < x) →
      (∀ s ∈ ts, ∀ x ∈ ts, s - rl.window < x) →
      (rl.requests userId).length + ts.length ≤ rl.maxRequests →
      (rl.runCalls userId ts).1 = List.replicate ts.length true ∧
      (rl.runCalls userId ts).2.requests userId = rl.requests userId ++ ts ∧
      (rl.runCalls userId ts).2.maxRequests = rl.maxRequests ∧
      (rl.runCalls userId ts).2.window = rl.window := by
  intro ts
  induction ts with
  | nil => intro rl _ _ _; simp [RateLimiter.runCalls]
  | cons t ts ih =>
    intro rl h1 h2 h3
    have hstep := RateLimiter.isAllowed_accept rl t userId
      (h1 t (List.mem_cons_self t ts)) (by simp at h3; omega)
    set rl' : RateLimiter :=
      { rl with requests :=
          Function.update rl.requests userId (rl.requests userId ++ [t]) } with hrl'
    have hreq' : rl'.requests userId = rl.requests userId ++ [t] := by
      rw [hrl']; exact Function.update_same userId _ rl.requests
    have ihres := ih rl'
      (by
        intro s hs x hx
        rw [hreq'] at hx
        rcases List.mem_append.mp hx with hx | hx
        · exact h1 s (List.mem_cons_of_mem t hs) x hx
        · have hxt : x = t := by simpa using hx
          rw [hxt]
          exact h2 s (List.mem_cons_of_mem t hs) t (List.mem_cons_self t ts))
      (fun s hs x hx => h2 s (List.mem_cons_of_mem t hs) x (List.mem_cons_of_mem t hx))
      (by rw [hreq']; simp at h3 ⊢; omega)
    simp only [RateLimiter.runCalls, hstep]
    refine ⟨?_, ?_, ?_, ?_⟩
    · simpa [List.replicate_succ] using ihres.1
    · rw [ihres.2.1, hreq', List.append_assoc]; rfl
    · exact ihres.2.2.1
    · exact ihres.2.2.2

/-- C1: With `maxRequests = 10` and `windowSeconds = 60`, for a fresh key
and any non-decreasing schedule of 11 call times close enough to the
first call that the later sweep at `t 0 + 61` prunes them all (each time
at most one second after the first, hence all within the same 60-second
window), the 1st through 10th `is_allowed` calls return `true`, the 11th
returns `false` and leaves the key's timestamp list unchanged (the
rejected attempt is not recorded), and a call issued 61 seconds after the
1st call returns `true` again. -/
theorem claim_C1_rate_limiter_scenario (userId : Int) (t : Fin 11 → Int)
    (hmono : ∀ i j : Fin 11, i ≤ j → t i ≤ t j)
    (hnear : ∀ i : Fin 11, t i ≤ t 0 + 1) :
    (((RateLimiter.init 10 60).runCalls userId
        (List.ofFn fun i : Fin 10 => t i.castSucc)).1 = List.replicate 10 true) ∧
    ((((RateLimiter.init 10 60).runCalls userId
        (List.ofFn fun i : Fin 10 => t i.castSucc)).2.isAllowed (t 10) userId).1 = false) ∧
    ((((RateLimiter.init 10 60).runCalls userId
        (List.ofFn fun i : Fin 10 => t i.castSucc)).2.isAllowed (t 10) userId).2.requests userId =
      ((RateLimiter.init 10 60).runCalls userId
        (List.ofFn fun i : Fin 10 => t i.castSucc)).2.requests userId) ∧
    (((((RateLimiter.init 10 60).runCalls userId
        (List.ofFn fun i : Fin 10 => t i.castSucc)).2.isAllowed (t 10) userId).2.isAllowed
        (t 0 + 61) userId).1 = true) := by
  have hlow : ∀ i : Fin 11, t 0 ≤ t i := fun i => hmono 0 i (Fin.zero_le i)
  have hofFn : ∀ x ∈ (List.ofFn fun i : Fin 10 => t i.castSucc), t 0 ≤ x ∧ x ≤ t 0 + 1 := by
    intro x hx
    rw [List.mem_ofFn] at hx
    obtain ⟨i, hi⟩ := hx
    exact hi ▸ ⟨hlow i.castSucc, hnear i.castSucc⟩
  have hrun := RateLimiter.runCalls_no_prune userId
    (List.ofFn fun i : Fin 10 => t i.castSucc) (RateLimiter.init 10 60)
    (by intro s _ x hx; simp [RateLimiter.init] at hx)
    (by
      intro s hs x hx
      have hs' := hofFn s hs
      have hx' := hofFn x hx
      show s - (RateLimiter.init 10 60).window < x
      have hwinit : (RateLimiter.init 10 60).window = 60 := rfl
      omega)
    (by simp [RateLimiter.init])
  obtain ⟨hres, hreq, hmax, hwin⟩ := hrun
  rw [List.length_ofFn] at hres
  rw [show (RateLimiter.init 10 60).requests userId = [] from rfl, List.nil_append] at hreq
  rw [show (RateLimiter.init 10 60).maxRequests = 10 from rfl] at hmax
  rw [show (RateLimiter.init 10 60).window = 60 from rfl] at hwin
  set rl10 := ((RateLimiter.init 10 60).runCalls userId
    (List.ofFn fun i : Fin 10 => t i.castSucc)).2 with hrl10
  have hlen10 : (rl10.requests userId).length = 10 := by
    rw [hreq]; exact List.length_ofFn _
  have hkeep11 : ∀ x ∈ rl10.requests userId, t 10 - rl10.window < x := by
    intro x hx
    rw [hreq] at hx
    have := hofFn x hx
    have h10 := hnear 10
    rw [hwin]
    omega
  have hstep11 := RateLimiter.isAllowed_reject rl10 (t 10) userId hkeep11
    (by rw [hlen10, hmax])
  have hprune : (rl10.requests userId).filter
      (fun x => decide (t 0 + 61 - rl10.window < x)) = [] := by
    rw [List.filter_eq_nil_iff]
    intro x hx
    rw [hreq] at hx
    have := hofFn x hx
    rw [hwin]
    simp only [decide_eq_true_eq]
    omega
  have g4 : ((rl10.isAllowed (t 10) userId).2.isAllowed (t 0 + 61) userId).1 = true := by
    simp only [hstep11]
    exact RateLimiter.isAllowed_true_of_prune_nil rl10 (t 0 + 61) userId hprune (by omega)
  exact ⟨hres, by rw [hstep11], by rw [hstep11], g4⟩

/-- Witness for C1 at the concrete schedule where all 11 calls happen at
time 0 and the final call at time 61. -/
theorem claim_C1_witness :
    (∀ i j : Fin 11, i ≤ j → (fun _ : Fin 11 => (0 : Int)) i ≤ (fun _ : Fin 11 => (0 : Int)) j) ∧
    (∀ i : Fin 11, (fun _ : Fin 11 => (0 : Int)) i ≤ (fun _ : Fin 11 => (0 : Int)) 0 + 1) ∧
    ((((RateLimiter.init 10 60).runCalls 7
        (List.ofFn fun i : Fin 10 => (fun _ : Fin 11 => (0 : Int)) i.castSucc)).1
        = List.replicate 10 true) ∧
      ((((RateLimiter.init 10 60).runCalls 7
        (List.ofFn fun i : Fin 10 => (fun _ : Fin 11 => (0 : Int)) i.castSucc)).2.isAllowed
        ((fun _ : Fin 11 => (0 : Int)) 10) 7).1 = false) ∧
      ((((RateLimiter.init 10 60).runCalls 7
        (List.ofFn fun i : Fin 10 => (fun _ : Fin 11 => (0 : Int)) i.castSucc)).2.isAllowed
        ((fun _ : Fin 11 => (0 : Int)) 10) 7).2.requests 7 =
        ((RateLimiter.init 10 60).runCalls 7
          (List.ofFn fun i : Fin 10 => (fun _ : Fin 11 => (0 : Int)) i.castSucc)).2.requests 7) ∧
      (((((RateLimiter.init 10 60).runCalls 7
        (List.ofFn fun i : Fin 10 => (fun _ : Fin 11 => (0 : Int)) i.castSucc)).2.isAllowed
        ((fun _ : Fin 11 => (0 : Int)) 10) 7).2.isAllowed
        ((fun _ : Fin 11 => (0 : Int)) 0 + 61) 7).1 = true)) :=
  ⟨by decide, by decide,
    claim_C1_rate_limiter_scenario 7 (fun _ => 0) (by decide) (by decide)⟩

/-- C8: After an `is_allowed` check for a key whose stored timestamp list
is non-decreasing and bounded by the check time (as produced by any run
with a monotone clock), the key's list is still non-decreasing and every
timestamp in it lies within the closed interval `[now - window, now]` —
never older than `window` seconds relative to this most recent check. -/
theorem claim_C8_window_invariant (rl : RateLimiter) (now userId : Int)
    (hw : 0 ≤ rl.window)
    (hsorted : (rl.requests userId).Sorted (· ≤ ·))
    (hpast : ∀ x ∈ rl.requests userId, x ≤ now) :
    ((rl.isAllowed now userId).2.requests userId).Sorted (· ≤ ·) ∧
    ∀ x ∈ (rl.isAllowed now userId).2.requests userId,
      now - rl.window ≤ x ∧ x ≤ now := by
  have hmemP : ∀ x ∈ (rl.requests userId).filter (fun s => decide (now - rl.window < s)),
      now - rl.window ≤ x ∧ x ≤ now := by
    intro x hx
    rw [List.mem_filter] at hx
    have := hpast x hx.1
    have := of_decide_eq_true hx.2
    omega
  have hsortP : ((rl.requests userId).filter
      (fun s => decide (now - rl.window < s))).Sorted (· ≤ ·) :=
    hsorted.filter _
  simp only [RateLimiter.isAllowed]
  split
  · dsimp only
    rw [Function.update_same]
    exact ⟨hsortP, hmemP⟩
  · dsimp only
    rw [Function.update_same]
    constructor
    · rw [List.Sorted, List.pairwise_append]
      refine ⟨hsortP, List.pairwise_singleton _ _, ?_⟩
      intro a ha b hb
      rw [List.mem_singleton] at hb
      subst hb
      rw [List.mem_filter] at ha
      exact hpast a ha.1
    · intro x hx
      rcases List.mem_append.mp hx with hx | hx
      · exact hmemP x hx
      · rw [List.mem_singleton] at hx
        subst hx
        omega

/-- Witness for C8 on a concrete limiter state holding `[0, 1]` for user
7, checked at time 2 with window 60. -/
theorem claim_C8_witness :
    (0 : Int) ≤ (RateLimiter.mk 10 60 (fun _ => [0, 1])).window ∧
    ((RateLimiter.mk 10 60 (fun _ => [0, 1])).requests 7).Sorted (· ≤ ·) ∧
    (∀ x ∈ (RateLimiter.mk 10 60 (fun _ => [0, 1])).requests 7, x ≤ 2) ∧
    ((((RateLimiter.mk 10 60 (fun _ => [0, 1])).isAllowed 2 7).2.requests 7).Sorted (· ≤ ·) ∧
      ∀ x ∈ ((RateLimiter.mk 10 60 (fun _ => [0, 1])).isAllowed 2 7).2.requests 7,
        (2 : Int) - (RateLimiter.mk 10 60 (fun _ => [0, 1])).window ≤ x ∧ x ≤ 2) :=
  ⟨by decide, by decide, by decide,
    claim_C8_window_invariant (RateLimiter.mk 10 60 (fun _ => [0, 1])) 2 7
      (by decide) (by decide) (by decide)⟩

/-! ## Association list lemmas -/

theorem find?_map_put_same {κ ν : Type} [DecidableEq κ] (l : List (κ × ν)) (k : κ) (v : ν) :
    ((l.map (fun p => if p.1 = k then (k, v) else p)).find? (fun p => decide (p.1 = k))) =
      (l.find? (fun p => decide (p.1 = k))).map (fun _ => (k, v)) := by
  induction l with
  | nil => rfl
  | cons p l ih =>
    by_cases hp : p.1 = k <;> simp [List.find?_cons, hp, ih]

theorem find?_map_put_other {κ ν : Type} [DecidableEq κ] (l : List (κ × ν)) (k k' : κ) (v : ν)
    (hne : k' ≠ k) :
    ((l.map (fun p => if p.1 = k then (k, v) else p)).find? (fun p => decide (p.1 = k'))) =
      l.find? (fun p => decide (p.1 = k')) := by
  induction l with
  | nil => rfl
  | cons p l ih =>
    by_cases hp : p.1 = k
    · have hp' : ¬ (p.1 = k') := by rw [hp]; exact fun h => hne h.symm
      have hkk' : ¬ (k = k') := fun h => hne h.symm
      simp [List.find?_cons, hp, hp', hkk', ih]
    · by_cases hp' : p.1 = k' <;> simp [List.find?_cons, hp, hp', hne, ih]

theorem alistGet_put_same {κ ν : Type} [DecidableEq κ] (l : List (κ × ν)) (k : κ) (v : ν) :
    alistGet (alistPut l k v) k = some v := by
  unfold alistGet alistPut
  split
  · rename_i h
    rw [find?_map_put_same]
    obtain ⟨p, hp⟩ := Option.isSome_iff_exists.mp h
    rw [hp]
    rfl
  · rename_i h
    rw [List.find?_append, Option.not_isSome_iff_eq_none.mp h]
    simp

theorem alistGet_put_other {κ ν : Type} [DecidableEq κ] (l : List (κ × ν)) (k k' : κ) (v : ν)
    (hne : k' ≠ k) :
    alistGet (alistPut l k v) k' = alistGet l k' := by
  unfold alistGet alistPut
  split
  · rw [find?_map_put_other l k k' v hne]
  · rw [List.find?_append]
    have : List.find? (fun p => decide (p.1 = k')) [(k, v)] = none := by
      simp [hne.symm]
    rw [this, Option.or_none]

/-- Filtering keeps `find?` for a key intact when every entry for that
key satisfies the filter. -/
theorem find?_filter_keep {κ ν : Type} [DecidableEq κ] (l : List (κ × ν)) (q : κ × ν → Bool)
    (k : κ) (hkeep : ∀ x ∈ l, x.1 = k → q x = true) :
    (l.filter q).find? (fun p => decide (p.1 = k)) = l.find? (fun p => decide (p.1 = k)) := by
  induction l with
  | nil => rfl
  | cons p l ih =>
    have ih' := ih (fun x hx => hkeep x (List.mem_cons_of_mem p hx))
    by_cases hp : p.1 = k
    · have hq : q p = true := hkeep p (List.mem_cons_self p l) hp
      rw [List.filter_cons_of_pos hq,
        @List.find?_cons_of_pos _ (fun x => decide (x.1 = k)) p (l.filter q)
          (decide_eq_true hp),
        @List.find?_cons_of_pos _ (fun x => decide (x.1 = k)) p l (decide_eq_true hp)]
    · have hp' : ¬ ((fun x : κ × ν => decide (x.1 = k)) p = true) := by simpa using hp
      cases hq : q p with
      | true =>
        rw [List.filter_cons_of_pos hq,
          @List.find?_cons_of_neg _ (fun x => decide (x.1 = k)) p (l.filter q) hp',
          @List.find?_cons_of_neg _ (fun x => decide (x.1 = k)) p l hp']
        exact ih'
      | false =>
        rw [List.filter_cons_of_neg (by simp [hq]),
          @List.find?_cons_of_neg _ (fun x => decide (x.1 = k)) p l hp']
        exact ih'

/-! ## TTL store lemmas -/

/-- After `_cleanup` at a time strictly more than `ttl` past some
`last_access` entry for a user, that user's data record is gone. -/
theorem UserDataStore.cleanup_data_expired {ν : Type} (s : UserDataStore ν)
    (now uid tLast : Int) (hmem : (uid, tLast) ∈ s.lastAccess)
    (hstale : s.ttl < now - tLast) :
    alistGet (s.cleanup now).data uid = none := by
  have hexp : uid ∈ (s.lastAccess.filter (fun p => decide (s.ttl < now - p.2))).map
      (fun p => p.1) := by
    exact List.mem_map.mpr ⟨(uid, tLast),
      List.mem_filter.mpr ⟨hmem, decide_eq_true hstale⟩, rfl⟩
  unfold UserDataStore.cleanup alistGet
  simp only
  rw [Option.map_eq_none']
  rw [List.find?_eq_none]
  intro x hx
  rw [List.mem_filter] at hx
  simp only [decide_eq_true_eq]
  intro hxk
  have hc := hx.2
  rw [hxk] at hc
  simp only [Bool.not_eq_true'] at hc
  have hc2 : ((s.lastAccess.filter (fun p => decide (s.ttl < now - p.2))).map
      (fun p => p.1)).contains uid = true := by simpa using hexp
  rw [hc2] at hc
  cases hc

/-- Cleanup keeps a user's data untouched when every `last_access`
entry for that user is within `ttl` of `now`. -/
theorem UserDataStore.cleanup_data_fresh {ν : Type} (s : UserDataStore ν)
    (now uid : Int) (hfresh : ∀ p ∈ s.lastAccess, p.1 = uid → now - p.2 ≤ s.ttl) :
    alistGet (s.cleanup now).data uid = alistGet s.data uid := by
  have hnot : ∀ x ∈ s.data, x.1 = uid →
      (!((s.lastAccess.filter (fun p => decide (s.ttl < now - p.2))).map
        (fun p => p.1)).contains x.1) = true := by
    intro x _ hxk
    rw [hxk]
    simp only [Bool.not_eq_true']
    rw [List.contains_eq_any_beq, List.any_eq_false]
    intro y hy
    rw [List.mem_map] at hy
    obtain ⟨p, hp, hpy⟩ := hy
    rw [List.mem_filter] at hp
    have h1 := hfresh p hp.1
    have h2 := of_decide_eq_true hp.2
    simp only [beq_iff_eq]
    intro he
    rw [← hpy] at he
    exact absurd h2 (not_lt.mpr (h1 he.symm))
  unfold UserDataStore.cleanup alistGet
  simp only
  rw [find?_filter_keep s.data _ uid hnot]

/-- C2: For any user with a `last_access` entry more than `ttl` seconds
in the past, the next `get` for that user returns the supplied default
and the user's entire data record is gone; conversely, while every
`last_access` entry for a user is within `ttl` of the current time, a
`get` by any caller leaves that user's data record untouched (they are
not evicted), and a `get` by the user refreshes their `last_access` to
the current time. -/
theorem claim_C2_ttl_store (ν : Type) :
    (∀ (s : UserDataStore ν) (now uid tLast : Int) (key : String) (d : ν),
      (uid, tLast) ∈ s.lastAccess → s.ttl < now - tLast →
      (s.get now uid key d).1 = d ∧ alistGet (s.get now uid key d).2.data uid = none) ∧
    (∀ (s : UserDataStore ν) (now uid : Int) (key : String) (d : ν),
      (∀ p ∈ s.lastAccess, p.1 = uid → now - p.2 ≤ s.ttl) →
      (∀ caller : Int,
        alistGet (s.get now caller key d).2.data uid = alistGet s.data uid) ∧
      alistGet (s.get now uid key d).2.lastAccess uid = some now) := by
  constructor
  · intro s now uid tLast key d hmem hstale
    have hgone := UserDataStore.cleanup_data_expired s now uid tLast hmem hstale
    constructor
    · show (alistGet ((alistGet (s.cleanup now).data uid).getD []) key).getD d = d
      rw [hgone]
      rfl
    · show alistGet (s.cleanup now).data uid = none
      exact hgone
  · intro s now uid key d hfresh
    constructor
    · intro caller
      show alistGet (s.cleanup now).data uid = alistGet s.data uid
      exact UserDataStore.cleanup_data_fresh s now uid hfresh
    · show alistGet (alistPut (s.cleanup now).lastAccess uid now) uid = some now
      exact alistGet_put_same _ uid now

/-- Witness for C2 on a concrete store (user 1, last access 0,
ttl 86400): an expired `get` at time 86401 and a fresh `get` at time
100. -/
theorem claim_C2_witness :
    (((1 : Int), (0 : Int)) ∈ c2Store.lastAccess ∧ c2Store.ttl < 86401 - 0 ∧
      ((c2Store.get 86401 1 "voice_id" "d").1 = "d" ∧
        alistGet (c2Store.get 86401 1 "voice_id" "d").2.data 1 = none)) ∧
    ((∀ p ∈ c2Store.lastAccess, p.1 = 1 → (100 : Int) - p.2 ≤ c2Store.ttl) ∧
      ((∀ caller : Int,
          alistGet (c2Store.get 100 caller "voice_id" "d").2.data 1 =
            alistGet c2Store.data 1) ∧
        alistGet (c2Store.get 100 1 "voice_id" "d").2.lastAccess 1 = some 100)) :=
  ⟨⟨by decide, by decide,
      (claim_C2_ttl_store String).1 c2Store 86401 1 0 "voice_id" "d" (by decide) (by decide)⟩,
    ⟨by decide,
      (claim_C2_ttl_store String).2 c2Store 100 1 "voice_id" "d" (by decide)⟩⟩

/-! ## Timed cache theorems -/

/-- C3: For both timed caches — voice catalog (TTL 3600 s) and quota
(TTL 300 s) — a call finding an entry with `now - fetchedAt < ttl`
returns the cached value unchanged without invoking the refresh
function; hence two calls within the TTL invoke the refresh function
exactly once (the first call fetches, the second does not); and a call
after the TTL has elapsed invokes the refresh function again and, on
success, replaces the entry wholesale with `(newValue, now)`. -/
theorem claim_C3_timed_caches (α ε : Type) :
    (∀ (tFetch now : Int) (v : α) (fetch : Except ε α),
      now - tFetch < VOICE_CACHE_TTL_SECONDS →
      get_voices_cached (some (tFetch, v)) now fetch =
        (Except.ok v, some (tFetch, v), false)) ∧
    (∀ (now1 now2 : Int) (v : α) (fetch2 : Except ε α),
      now2 - now1 < VOICE_CACHE_TTL_SECONDS →
      (get_voices_cached (none : Option (Int × α)) now1 ((Except.ok v : Except ε α)) =
        (Except.ok v, some (now1, v), true)) ∧
      get_voices_cached
        (get_voices_cached (none : Option (Int × α)) now1
          ((Except.ok v : Except ε α))).2.1 now2 fetch2 =
        (Except.ok v, some (now1, v), false)) ∧
    (∀ (tFetch now : Int) (v v' : α),
      VOICE_CACHE_TTL_SECONDS ≤ now - tFetch →
      get_voices_cached (some (tFetch, v)) now ((Except.ok v' : Except ε α)) =
        (Except.ok v', some (now, v'), true)) ∧
    (∀ (tFetch now v : Int) (hasKey : Bool) (fetch : QuotaResp),
      now - tFetch < QUOTA_CACHE_TTL →
      check_quota_remaining_chars (some (tFetch, v)) now hasKey fetch =
        (some v, some (tFetch, v), false)) ∧
    (∀ (now1 now2 l u : Int) (fetch2 : QuotaResp),
      now2 - now1 < QUOTA_CACHE_TTL →
      (check_quota_remaining_chars none now1 true (QuotaResp.resp 200 (some l) (some u)) =
        (some (max 0 (l - u)), some (now1, max 0 (l - u)), true)) ∧
      check_quota_remaining_chars
        (check_quota_remaining_chars none now1 true
          (QuotaResp.resp 200 (some l) (some u))).2.1 now2 true fetch2 =
        (some (max 0 (l - u)), some (now1, max 0 (l - u)), false)) ∧
    (∀ (tFetch now v l u : Int),
      QUOTA_CACHE_TTL ≤ now - tFetch →
      check_quota_remaining_chars (some (tFetch, v)) now true
        (QuotaResp.resp 200 (some l) (some u)) =
        (some (max 0 (l - u)), some (now, max 0 (l - u)), true)) := by
  have hvfresh : ∀ (tFetch now : Int) (v : α) (fetch : Except ε α),
      now - tFetch < VOICE_CACHE_TTL_SECONDS →
      get_voices_cached (some (tFetch, v)) now fetch =
        (Except.ok v, some (tFetch, v), false) := by
    intro tFetch now v fetch h
    unfold get_voices_cached
    dsimp only
    rw [if_pos h]
  have hvfirst : ∀ (now1 : Int) (v : α),
      get_voices_cached (none : Option (Int × α)) now1 ((Except.ok v : Except ε α)) =
        (Except.ok v, some (now1, v), true) := by
    intro now1 v
    unfold get_voices_cached
    rfl
  have hqfresh : ∀ (tFetch now v : Int) (hasKey : Bool) (fetch : QuotaResp),
      now - tFetch < QUOTA_CACHE_TTL →
      check_quota_remaining_chars (some (tFetch, v)) now hasKey fetch =
        (some v, some (tFetch, v), false) := by
    intro tFetch now v hasKey fetch h
    unfold check_quota_remaining_chars
    dsimp only
    rw [if_pos h]
  have hqfirst : ∀ (now1 l u : Int),
      check_quota_remaining_chars none now1 true (QuotaResp.resp 200 (some l) (some u)) =
        (some (max 0 (l - u)), some (now1, max 0 (l - u)), true) := by
    intro now1 l u
    unfold check_quota_remaining_chars check_quota_remaining_chars.check_quota_fresh
    simp
  refine ⟨hvfresh, ?_, ?_, hqfresh, ?_, ?_⟩
  · intro now1 now2 v fetch2 h
    refine ⟨hvfirst now1 v, ?_⟩
    rw [hvfirst now1 v]
    exact hvfresh now1 now2 v fetch2 h
  · intro tFetch now v v' h
    unfold get_voices_cached
    dsimp only
    rw [if_neg (not_lt.mpr h)]
  · intro now1 now2 l u fetch2 h
    refine ⟨hqfirst now1 l u, ?_⟩
    rw [hqfirst now1 l u]
    exact hqfresh now1 now2 (max 0 (l - u)) true fetch2 h
  · intro tFetch now v l u h
    unfold check_quota_remaining_chars check_quota_remaining_chars.check_quota_fresh
    dsimp only
    rw [if_neg (not_lt.mpr h)]
    simp

/-- Witness for C3 at concrete times and values (voices value 3, quota
limit 10 and count 4). -/
theorem claim_C3_witness :
    ((5 : Int) - 0 < VOICE_CACHE_TTL_SECONDS ∧
      get_voices_cached (some ((0 : Int), (3 : Nat))) 5 (Except.error ()) =
        (Except.ok 3, some (0, 3), false)) ∧
    ((7 : Int) - 2 < VOICE_CACHE_TTL_SECONDS ∧
      (get_voices_cached (none : Option (Int × Nat)) 2 ((Except.ok 3 : Except Unit Nat)) =
        (Except.ok 3, some (2, 3), true)) ∧
      get_voices_cached
        (get_voices_cached (none : Option (Int × Nat)) 2
          ((Except.ok 3 : Except Unit Nat))).2.1 7 (Except.error ()) =
        (Except.ok 3, some (2, 3), false)) ∧
    (VOICE_CACHE_TTL_SECONDS ≤ (4000 : Int) - 0 ∧
      get_voices_cached (some ((0 : Int), (3 : Nat))) 4000
        ((Except.ok 8 : Except Unit Nat)) = (Except.ok 8, some (4000, 8), true)) ∧
    ((5 : Int) - 0 < QUOTA_CACHE_TTL ∧
      check_quota_remaining_chars (some ((0 : Int), (42 : Int))) 5 true QuotaResp.raised =
        (some 42, some (0, 42), false)) ∧
    ((7 : Int) - 2 < QUOTA_CACHE_TTL ∧
      (check_quota_remaining_chars none 2 true (QuotaResp.resp 200 (some 10) (some 4)) =
        (some (max 0 (10 - 4)), some (2, max 0 (10 - 4)), true)) ∧
      check_quota_remaining_chars
        (check_quota_remaining_chars none 2 true
          (QuotaResp.resp 200 (some 10) (some 4))).2.1 7 true QuotaResp.raised =
        (some (max 0 (10 - 4)), some (2, max 0 (10 - 4)), false)) ∧
    (QUOTA_CACHE_TTL ≤ (400 : Int) - 0 ∧
      check_quota_remaining_chars (some ((0 : Int), (42 : Int))) 400 true
        (QuotaResp.resp 200 (some 10) (some 4)) =
        (some (max 0 (10 - 4)), some (400, max 0 (10 - 4)), true)) :=
  ⟨⟨by decide, (claim_C3_timed_caches Nat Unit).1 0 5 3 (Except.error ()) (by decide)⟩,
    ⟨by decide, (claim_C3_timed_caches Nat Unit).2.1 2 7 3 (Except.error ()) (by decide)⟩,
    ⟨by decide, (claim_C3_timed_caches Nat Unit).2.2.1 0 4000 3 8 (by decide)⟩,
    ⟨by decide, (claim_C3_timed_caches Nat Unit).2.2.2.1 0 5 42 true QuotaResp.raised
      (by decide)⟩,
    ⟨by decide, (claim_C3_timed_caches Nat Unit).2.2.2.2.1 2 7 10 4 QuotaResp.raised
      (by decide)⟩,
    ⟨by decide, (claim_C3_timed_caches Nat Unit).2.2.2.2.2 0 400 42 10 4 (by decide)⟩⟩

/-- C10: Whenever the quota fetch succeeds with integer `character_limit`
and `character_count` fields on a 200 response (and the cache is empty or
stale so the fetch actually happens), the value cached and returned is
`max 0 (limit - count)` — never negative, even when the used count
exceeds the limit. -/
theorem claim_C10_quota_clamp (cache : Option (Int × Int)) (now l u : Int)
    (hmiss : cache = none ∨ ∃ tFetch v, cache = some (tFetch, v) ∧ QUOTA_CACHE_TTL ≤ now - tFetch) :
    check_quota_remaining_chars cache now true (QuotaResp.resp 200 (some l) (some u)) =
      (some (max 0 (l - u)), some (now, max 0 (l - u)), true) ∧
    0 ≤ max 0 (l - u) := by
  refine ⟨?_, le_max_left 0 (l - u)⟩
  rcases hmiss with h | ⟨tFetch, v, h, hstale⟩
  · subst h
    unfold check_quota_remaining_chars check_quota_remaining_chars.check_quota_fresh
    simp
  · subst h
    unfold check_quota_remaining_chars check_quota_remaining_chars.check_quota_fresh
    dsimp only
    rw [if_neg (not_lt.mpr hstale)]
    simp

/-- Witness for C10: limit 5, used 10 — the clamped remaining quota is
0, not −5. -/
theorem claim_C10_witness :
    ((none : Option (Int × Int)) = none ∨
      ∃ tFetch v, (none : Option (Int × Int)) = some (tFetch, v) ∧
        QUOTA_CACHE_TTL ≤ (0 : Int) - tFetch) ∧
    (check_quota_remaining_chars none 0 true (QuotaResp.resp 200 (some 5) (some 10)) =
      (some (max 0 (5 - 10)), some (0, max 0 (5 - 10)), true) ∧
    (0 : Int) ≤ max 0 (5 - 10)) :=
  ⟨Or.inl rfl, claim_C10_quota_clamp none 0 5 10 (Or.inl rfl)⟩

/-- On the fresh-fetch path the quota cache is either left untouched, or
written with a successful integer remaining value stamped `now`. -/
theorem check_quota_fresh_cache_write (cache : Option (Int × Int)) (now : Int)
    (hasKey : Bool) (fetch : QuotaResp) :
    (check_quota_remaining_chars.check_quota_fresh cache now hasKey fetch).2.1 = cache ∨
    ∃ r : Int, check_quota_remaining_chars.check_quota_fresh cache now hasKey fetch =
      (some r, some (now, r), true) := by
  unfold check_quota_remaining_chars.check_quota_fresh
  cases hasKey with
  | false => exact Or.inl rfl
  | true =>
    cases fetch with
    | raised => exact Or.inl rfl
    | resp st l u =>
      dsimp only [Bool.not_true, Bool.false_eq_true, if_false]
      by_cases hst : st ≠ 200
      · rw [if_pos hst]
        exact Or.inl rfl
      · rw [if_neg hst]
        rcases l with _ | l
        · rcases u with _ | u <;> exact Or.inl rfl
        · rcases u with _ | u
          · exact Or.inl rfl
          · exact Or.inr ⟨max 0 (l - u), rfl⟩

/-- The whole quota call either leaves the cache untouched or writes a
successful integer remaining value stamped `now`. -/
theorem check_quota_cache_write (cache : Option (Int × Int)) (now : Int)
    (hasKey : Bool) (fetch : QuotaResp) :
    (check_quota_remaining_chars cache now hasKey fetch).2.1 = cache ∨
    ∃ r : Int, check_quota_remaining_chars cache now hasKey fetch =
      (some r, some (now, r), true) := by
  unfold check_quota_remaining_chars
  rcases cache with _ | ⟨tF, v⟩
  · exact check_quota_fresh_cache_write none now hasKey fetch
  · dsimp only
    by_cases hfresh : now - tF < QUOTA_CACHE_TTL
    · rw [if_pos hfresh]
      exact Or.inl rfl
    · rw [if_neg hfresh]
      exact check_quota_fresh_cache_write (some (tF, v)) now hasKey fetch

/-- C4 counterexample: on a raised provider error the quota path returns
`None` — the very same default value it returns when the quota feature is
disabled — instead of propagating the failure; the error is suppressed
into a default, refuting the claim for the quota cache. -/
theorem claim_C4_counterexample :
    (check_quota_remaining_chars none 0 true QuotaResp.raised).1 = none ∧
    (check_quota_remaining_chars none 0 false
      (QuotaResp.resp 200 (some 1) (some 0))).1 = none := by
  exact ⟨rfl, rfl⟩

/-- C4 (amended): when a cache refresh fails with a provider error, the
previously cached entry (if any) is left untouched for both caches; the
catalog cache propagates the error unchanged to its caller, but the
quota cache catches the exception and suppresses it into the default
`None` rather than propagating it. -/
theorem claim_C4_error_handling (α ε : Type) :
    (∀ (cache : Option (Int × α)) (now : Int) (e : ε),
      (get_voices_cached cache now (Except.error e)).2.1 = cache) ∧
    (∀ (cache : Option (Int × α)) (now : Int) (e : ε),
      (cache = none ∨ ∃ tF v, cache = some (tF, v) ∧ VOICE_CACHE_TTL_SECONDS ≤ now - tF) →
      (get_voices_cached cache now (Except.error e)).1 = Except.error e) ∧
    (∀ (cache : Option (Int × Int)) (now : Int),
      (check_quota_remaining_chars cache now true QuotaResp.raised).2.1 = cache) ∧
    (∀ (cache : Option (Int × Int)) (now : Int),
      (cache = none ∨ ∃ tF v, cache = some (tF, v) ∧ QUOTA_CACHE_TTL ≤ now - tF) →
      (check_quota_remaining_chars cache now true QuotaResp.raised).1 = none) := by
  refine ⟨?_, ?_, ?_, ?_⟩
  · intro cache now e
    unfold get_voices_cached
    rcases cache with _ | ⟨tF, v⟩
    · rfl
    · dsimp only
      by_cases hfresh : now - tF < VOICE_CACHE_TTL_SECONDS
      · rw [if_pos hfresh]
      · rw [if_neg hfresh]
  · intro cache now e hmiss
    unfold get_voices_cached
    rcases hmiss with h | ⟨tF, v, h, hstale⟩
    · subst h; rfl
    · subst h
      dsimp only
      rw [if_neg (not_lt.mpr hstale)]
  · intro cache now
    unfold check_quota_remaining_chars
    rcases cache with _ | ⟨tF, v⟩
    · rfl
    · dsimp only
      by_cases hfresh : now - tF < QUOTA_CACHE_TTL
      · rw [if_pos hfresh]
      · rw [if_neg hfresh]; rfl
  · intro cache now hmiss
    unfold check_quota_remaining_chars
    rcases hmiss with h | ⟨tF, v, h, hstale⟩
    · subst h; rfl
    · subst h
      dsimp only
      rw [if_neg (not_lt.mpr hstale)]
      rfl

/-- Witness for C4 (amended) on empty and stale caches at concrete
times. -/
theorem claim_C4_witness :
    ((get_voices_cached (some ((0 : Int), (3 : Nat))) 10 (Except.error ())).2.1 =
      some (0, 3)) ∧
    (((none : Option (Int × Nat)) = none ∨
        ∃ tF v, (none : Option (Int × Nat)) = some (tF, v) ∧
          VOICE_CACHE_TTL_SECONDS ≤ (0 : Int) - tF) ∧
      (get_voices_cached (none : Option (Int × Nat)) 0
        ((Except.error () : Except Unit Nat))).1 = Except.error ()) ∧
    ((check_quota_remaining_chars (some ((0 : Int), (42 : Int))) 400 true
        QuotaResp.raised).2.1 = some (0, 42)) ∧
    ((some ((0 : Int), (42 : Int)) = (none : Option (Int × Int)) ∨
        ∃ tF v, some ((0 : Int), (42 : Int)) = some (tF, v) ∧
          QUOTA_CACHE_TTL ≤ (400 : Int) - tF) ∧
      (check_quota_remaining_chars (some ((0 : Int), (42 : Int))) 400 true
        QuotaResp.raised).1 = none) :=
  ⟨(claim_C4_error_handling Nat Unit).1 (some (0, 3)) 10 (),
    ⟨Or.inl rfl,
      (claim_C4_error_handling Nat Unit).2.1 none 0 () (Or.inl rfl)⟩,
    (claim_C4_error_handling Nat Unit).2.2.1 (some (0, 42)) 400,
    ⟨Or.inr ⟨0, 42, rfl, by decide⟩,
      (claim_C4_error_handling Nat Unit).2.2.2 (some (0, 42)) 400
        (Or.inr ⟨0, 42, rfl, by decide⟩)⟩⟩

/-- C5 counterexample: a well-formed 200 response lacking usable quota
fields yields `None` but writes nothing to the cache, and a second call
10 seconds later (well within the 300-second TTL) performs the HTTP
request again — the "unknown" value is not cached. -/
theorem claim_C5_counterexample :
    (check_quota_remaining_chars none 0 true (QuotaResp.resp 200 none none)).1 = none ∧
    (check_quota_remaining_chars none 0 true (QuotaResp.resp 200 none none)).2.1 = none ∧
    (check_quota_remaining_chars
      (check_quota_remaining_chars none 0 true (QuotaResp.resp 200 none none)).2.1
      10 true (QuotaResp.resp 200 none none)).2.2 = true := by
  exact ⟨rfl, rfl, rfl⟩

/-- C5 (amended): a well-formed response without usable integer quota
fields (and likewise a disabled quota feature) yields `None` as the
result, but `None` is never cached — the cache is written only with
successful integer values — so a subsequent call within the 300-second
TTL invokes the provider again. -/
theorem claim_C5_unknown_not_cached :
    (∀ (now : Int) (l u : Option Int),
      l = none ∨ u = none →
      check_quota_remaining_chars none now true (QuotaResp.resp 200 l u) =
        (none, none, true)) ∧
    (∀ (now : Int) (fetch : QuotaResp),
      check_quota_remaining_chars none now false fetch = (none, none, false)) ∧
    (∀ (cache : Option (Int × Int)) (now : Int) (hasKey : Bool) (fetch : QuotaResp),
      (check_quota_remaining_chars cache now hasKey fetch).2.1 ≠ cache →
      ∃ r : Int, check_quota_remaining_chars cache now hasKey fetch =
        (some r, some (now, r), true)) ∧
    (∀ (now now' : Int) (l u : Option Int) (fetch' : QuotaResp),
      l = none ∨ u = none →
      (check_quota_remaining_chars
        (check_quota_remaining_chars none now true (QuotaResp.resp 200 l u)).2.1
        now' true fetch').2.2 = (check_quota_remaining_chars none now' true fetch').2.2) := by
  have hmalformed : ∀ (now : Int) (l u : Option Int),
      l = none ∨ u = none →
      check_quota_remaining_chars none now true (QuotaResp.resp 200 l u) =
        (none, none, true) := by
    intro now l u h
    unfold check_quota_remaining_chars check_quota_remaining_chars.check_quota_fresh
    rcases h with h | h
    · subst h; rcases u with _ | u <;> rfl
    · subst h; rcases l with _ | l <;> rfl
  refine ⟨hmalformed, ?_, ?_, ?_⟩
  · intro now fetch
    rfl
  · intro cache now hasKey fetch hne
    rcases check_quota_cache_write cache now hasKey fetch with h | h
    · exact absurd h hne
    · exact h
  · intro now now' l u fetch' h
    rw [hmalformed now l u h]

/-- Witness for C5 (amended) at concrete inputs: a 200 response missing
both fields at time 0, and a successful integer write at time 0 forcing
the cache to change. -/
theorem claim_C5_witness :
    (((none : Option Int) = none ∨ (none : Option Int) = none) ∧
      check_quota_remaining_chars none 0 true (QuotaResp.resp 200 none none) =
        (none, none, true)) ∧
    (check_quota_remaining_chars none 5 false QuotaResp.raised = (none, none, false)) ∧
    (((check_quota_remaining_chars none 0 true
        (QuotaResp.resp 200 (some 10) (some 4))).2.1 ≠ (none : Option (Int × Int))) ∧
      ∃ r : Int, check_quota_remaining_chars none 0 true
        (QuotaResp.resp 200 (some 10) (some 4)) = (some r, some (0, r), true)) ∧
    (((none : Option Int) = none ∨ (none : Option Int) = none) ∧
      (check_quota_remaining_chars
        (check_quota_remaining_chars none 0 true (QuotaResp.resp 200 none none)).2.1
        10 true (QuotaResp.resp 200 none none)).2.2 =
        (check_quota_remaining_chars none 10 true (QuotaResp.resp 200 none none)).2.2) :=
  ⟨⟨Or.inl rfl, claim_C5_unknown_not_cached.1 0 none none (Or.inl rfl)⟩,
    claim_C5_unknown_not_cached.2.1 5 QuotaResp.raised,
    ⟨by decide,
      claim_C5_unknown_not_cached.2.2.1 none 0 true
        (QuotaResp.resp 200 (some 10) (some 4)) (by decide)⟩,
    ⟨Or.inl rfl,
      claim_C5_unknown_not_cached.2.2.2 0 10 none none
        (QuotaResp.resp 200 none none) (Or.inl rfl)⟩⟩

/-! ## Catalog indexer lemmas -/

theorem keyLe_trans (a b c : String × String × String)
    (h1 : keyLe a b = true) (h2 : keyLe b c = true) : keyLe a c = true := by
  unfold keyLe at h1 h2 ⊢
  simp only [decide_eq_true_eq] at h1 h2 ⊢
  rcases h1 with h1 | ⟨h1e, h1le⟩ <;> rcases h2 with h2 | ⟨h2e, h2le⟩
  · exact Or.inl (lt_trans h1 h2)
  · exact Or.inl (h2e ▸ h1)
  · exact Or.inl (h1e ▸ h2)
  · exact Or.inr ⟨h1e.trans h2e, le_trans h1le h2le⟩

theorem keyLe_total (a b : String × String × String) :
    (keyLe a b || keyLe b a) = true := by
  unfold keyLe
  simp only [Bool.or_eq_true, decide_eq_true_eq]
  rcases Nat.lt_trichotomy (sort_key a).1 (sort_key b).1 with h | h | h
  · exact Or.inl (Or.inl h)
  · rcases le_total (sort_key a).2 (sort_key b).2 with hle | hle
    · exact Or.inl (Or.inr ⟨h, hle⟩)
    · exact Or.inr (Or.inr ⟨h.symm, hle⟩)
  · exact Or.inr (Or.inl h)

/-- A filter and its negation partition the length of a list. -/
theorem length_filter_partition {α : Type} (p : α → Bool) (l : List α) :
    (l.filter p).length + (l.filter (fun a => !p a)).length = l.length := by
  induction l with
  | nil => rfl
  | cons a l ih =>
    cases ha : p a <;>
      simp [List.filter_cons, ha, Nat.succ_eq_add_one] <;> omega

/-- Keys never touched by the record fold keep their previous values in
both reverse maps. -/
theorem foldl_updateMaps_notin (records : List VoiceRecord) :
    ∀ (m : (String → Option String) × (String → Option String)) (v : String),
      (∀ r ∈ records, r.vidOk = true → r.voice_id.getD "" ≠ v) →
      (records.foldl updateMaps m).1 v = m.1 v ∧
      (records.foldl updateMaps m).2 v = m.2 v := by
  induction records with
  | nil => intro m v _; exact ⟨rfl, rfl⟩
  | cons r rest ih =>
    intro m v hnot
    rw [List.foldl_cons]
    have hrec := ih (updateMaps m r) v
      (fun r' hr' => hnot r' (List.mem_cons_of_mem r hr'))
    have hm : (updateMaps m r).1 v = m.1 v ∧ (updateMaps m r).2 v = m.2 v := by
      unfold updateMaps
      cases hok : r.vidOk with
      | false => exact ⟨rfl, rfl⟩
      | true =>
        have hne : v ≠ r.voice_id.getD "" :=
          fun h => hnot r (List.mem_cons_self r rest) hok h.symm
        simp only [if_pos rfl]
        exact ⟨Function.update_noteq hne _ _, Function.update_noteq hne _ _⟩
    exact ⟨hrec.1.trans hm.1, hrec.2.trans hm.2⟩

/-- Any id fetched by some record ends up mapped to the name and language
of one of the records carrying that id. -/
theorem foldl_updateMaps_mem (records : List VoiceRecord) :
    ∀ (m : (String → Option String) × (String → Option String)) (v : String),
      (∃ r ∈ records, r.vidOk = true ∧ r.voice_id.getD "" = v) →
      ∃ r' : VoiceRecord, r' ∈ records ∧ r'.vidOk = true ∧ r'.voice_id.getD "" = v ∧
        (records.foldl updateMaps m).1 v = some r'.name ∧
        (records.foldl updateMaps m).2 v = some r'.language := by
  induction records with
  | nil => intro m v h; simp at h
  | cons r rest ih =>
    intro m v hex
    rw [List.foldl_cons]
    by_cases hrest : ∃ r' ∈ rest, r'.vidOk = true ∧ r'.voice_id.getD "" = v
    · obtain ⟨r', h1, h2, h3, h4, h5⟩ := ih (updateMaps m r) v hrest
      exact ⟨r', List.mem_cons_of_mem r h1, h2, h3, h4, h5⟩
    · have hr : r.vidOk = true ∧ r.voice_id.getD "" = v := by
        obtain ⟨r0, hr0, hok, hv⟩ := hex
        rcases List.mem_cons.mp hr0 with h | h
        · exact ⟨h ▸ hok, h ▸ hv⟩
        · exact absurd ⟨r0, h, hok, hv⟩ hrest
      have hnot : ∀ r' ∈ rest, r'.vidOk = true → r'.voice_id.getD "" ≠ v :=
        fun r' h1 h2 h3 => hrest ⟨r', h1, h2, h3⟩
      have hkeep := foldl_updateMaps_notin rest (updateMaps m r) v hnot
      refine ⟨r, List.mem_cons_self r rest, hr.1, hr.2, ?_, ?_⟩
      · rw [hkeep.1]
        unfold updateMaps
        rw [if_pos hr.1, ← hr.2]
        exact Function.update_same _ _ _
      · rw [hkeep.2]
        unfold updateMaps
        rw [if_pos hr.1, ← hr.2]
        exact Function.update_same _ _ _

unseal List.merge List.mergeSort in
/-- C6: Within each bucket the output order is sorted ascending by the
pair `(lang_priority(language), lowercase name)` — compared
lexicographically, with ties on language priority broken by
case-insensitive (lowercased, code-point) name comparison; the projected
`(name, id)` buckets follow exactly that order; `lang_priority` is 0 on
the Russian variants, 1 on labels containing "multi", 2 otherwise; and
two "ru" voices named "Zoe" and "anna" sort as anna, Zoe. -/
theorem claim_C6_catalog_sort :
    (∀ records : List VoiceRecord,
      ((temp_male records).mergeSort keyLe).Pairwise
        (fun a b => (sort_key a).1 < (sort_key b).1 ∨
          ((sort_key a).1 = (sort_key b).1 ∧ (sort_key a).2 ≤ (sort_key b).2)) ∧
      ((temp_female records).mergeSort keyLe).Pairwise
        (fun a b => (sort_key a).1 < (sort_key b).1 ∨
          ((sort_key a).1 = (sort_key b).1 ∧ (sort_key a).2 ≤ (sort_key b).2)) ∧
      bucket (temp_male records) =
        ((temp_male records).mergeSort keyLe).map (fun item => (item.1, item.2.1)) ∧
      bucket (temp_female records) =
        ((temp_female records).mergeSort keyLe).map (fun item => (item.1, item.2.1))) ∧
    lang_priority "ru" = 0 ∧ lang_priority "russian" = 0 ∧
    lang_priority "русский" = 0 ∧ lang_priority "Multilingual v2" = 1 ∧
    lang_priority "en" = 2 ∧
    bucket (temp_female [recZoe, recAnnaLower]) = [("anna", "5"), ("Zoe", "4")] := by
  have hconv : ∀ a b : String × String × String, keyLe a b = true →
      (sort_key a).1 < (sort_key b).1 ∨
        ((sort_key a).1 = (sort_key b).1 ∧ (sort_key a).2 ≤ (sort_key b).2) := by
    intro a b h
    unfold keyLe at h
    exact of_decide_eq_true h
  refine ⟨?_, by decide, by decide, by decide, by decide, by decide, by decide⟩
  intro records
  exact ⟨(List.sorted_mergeSort keyLe_trans keyLe_total (temp_male records)).imp
      (fun h => hconv _ _ h),
    (List.sorted_mergeSort keyLe_trans keyLe_total (temp_female records)).imp
      (fun h => hconv _ _ h),
    rfl, rfl⟩

unseal List.merge List.mergeSort in
/-- C7: Every input record with a usable voice id lands in exactly one
bucket — the female bucket when its lowered gender label contains
"female", the male bucket otherwise (absent or unrecognized gender
included, so no voice is lost); records without a usable id are dropped
and have no effect; and on the spec's example records the male bucket is
Ivan then Ben, the female bucket just Anna, while a record with gender
`""` lands in the male bucket. -/
theorem claim_C7_catalog_partition :
    (∀ (records : List VoiceRecord) (r : VoiceRecord),
      r ∈ records → r.vidOk = true →
      (r.isFemale = true →
        (r.name, r.voice_id.getD "") ∈ bucket (temp_female records)) ∧
      (r.isFemale = false →
        (r.name, r.voice_id.getD "") ∈ bucket (temp_male records))) ∧
    (∀ records : List VoiceRecord,
      (bucket (temp_male records)).length + (bucket (temp_female records)).length =
        (records.filter (fun r => r.vidOk)).length) ∧
    (∀ records : List VoiceRecord,
      temp_male (records.filter (fun r => r.vidOk)) = temp_male records ∧
      temp_female (records.filter (fun r => r.vidOk)) = temp_female records) ∧
    (rebuildIndex CatalogState.init [recAnna, recIvan, recBen]).male =
      [("Ivan", "2"), ("Ben", "3")] ∧
    (rebuildIndex CatalogState.init [recAnna, recIvan, recBen]).female =
      [("Anna", "1")] ∧
    (rebuildIndex CatalogState.init [recNoGender]).male = [("X", "9")] ∧
    (rebuildIndex CatalogState.init [recNoId]).male = [] ∧
    (rebuildIndex CatalogState.init [recNoId]).female = [] := by
  refine ⟨?_, ?_, ?_, by decide, by decide, by decide, by decide, by decide⟩
  · intro records r hmem hvid
    constructor
    · intro hf
      unfold bucket
      refine List.mem_map.mpr ⟨(r.name, r.voice_id.getD "", r.language), ?_, rfl⟩
      rw [(List.mergeSort_perm _ keyLe).mem_iff]
      unfold temp_female
      exact List.mem_map.mpr
        ⟨r, List.mem_filter.mpr ⟨hmem, by simp [hvid, hf]⟩, rfl⟩
    · intro hf
      unfold bucket
      refine List.mem_map.mpr ⟨(r.name, r.voice_id.getD "", r.language), ?_, rfl⟩
      rw [(List.mergeSort_perm _ keyLe).mem_iff]
      unfold temp_male
      exact List.mem_map.mpr
        ⟨r, List.mem_filter.mpr ⟨hmem, by simp [hvid, hf]⟩, rfl⟩
  · intro records
    unfold bucket temp_male temp_female
    rw [List.length_map, List.length_mergeSort, List.length_map,
      List.length_map, List.length_mergeSort, List.length_map]
    have hm : records.filter (fun r => r.vidOk && !r.isFemale)
        = (records.filter (fun r => r.vidOk)).filter (fun r => !r.isFemale) := by
      rw [List.filter_filter]
      exact (List.filter_congr (fun x _ => Bool.and_comm _ _)).symm
    have hf : records.filter (fun r => r.vidOk && r.isFemale)
        = (records.filter (fun r => r.vidOk)).filter (fun r => r.isFemale) := by
      rw [List.filter_filter]
      exact (List.filter_congr (fun x _ => Bool.and_comm _ _)).symm
    rw [hm, hf]
    have := length_filter_partition (fun r : VoiceRecord => r.isFemale)
      (records.filter (fun r => r.vidOk))
    omega
  · intro records
    constructor
    · unfold temp_male
      rw [List.filter_filter]
      congr 1
      exact List.filter_congr
        (fun x _ => by cases hx : x.vidOk <;> cases hx2 : x.isFemale <;> simp [hx, hx2])
    · unfold temp_female
      rw [List.filter_filter]
      congr 1
      exact List.filter_congr
        (fun x _ => by cases hx : x.vidOk <;> cases hx2 : x.isFemale <;> simp [hx, hx2])

/-- Witness for C7: Anna (female, id "1") lands in the female bucket and
Ivan (male, id "2") in the male bucket of the two-record catalog. -/
theorem claim_C7_witness :
    recAnna ∈ [recAnna, recIvan] ∧ recAnna.vidOk = true ∧ recAnna.isFemale = true ∧
    recIvan ∈ [recAnna, recIvan] ∧ recIvan.vidOk = true ∧ recIvan.isFemale = false ∧
    ("Anna", "1") ∈ bucket (temp_female [recAnna, recIvan]) ∧
    ("Ivan", "2") ∈ bucket (temp_male [recAnna, recIvan]) :=
  ⟨by decide, by decide, by decide, by decide, by decide, by decide,
    (claim_C7_catalog_partition.1 [recAnna, recIvan] recAnna
      (by decide) (by decide)).1 (by decide),
    (claim_C7_catalog_partition.1 [recAnna, recIvan] recIvan
      (by decide) (by decide)).2 (by decide)⟩

/-- C9 counterexample: after a first refresh with the record
Anna (id "1") and a second refresh whose records do not contain id "1",
the reverse map `voice_id_to_name` still holds the entry for id "1" from
the earlier refresh (a from-scratch rebuild on the same fresh records
holds none) — so the reverse lookups are not rebuilt in full and mapping
entries from an earlier refresh survive. -/
theorem claim_C9_counterexample :
    (rebuildIndex (rebuildIndex CatalogState.init [recAnna]) [recIvan]).idToName "1" =
      some "Anna" ∧
    ¬ (∃ r ∈ [recIvan], r.vidOk = true ∧ r.voice_id.getD "" = "1") ∧
    (rebuildIndex CatalogState.init [recIvan]).idToName "1" = none :=
  ⟨by decide, by decide, by decide⟩

/-- C9 (amended): on every catalog refresh the two category buckets are
rebuilt in full from the freshly fetched records alone (the previous
state does not influence them), and the reverse lookups `id→name` and
`id→language` are updated for every fetched id — but entries for ids
absent from the fresh fetch are not cleared and survive from earlier
refreshes. -/
theorem claim_C9_index_rebuild :
    (∀ (s s' : CatalogState) (records : List VoiceRecord),
      (rebuildIndex s records).male = (rebuildIndex s' records).male ∧
      (rebuildIndex s records).female = (rebuildIndex s' records).female) ∧
    (∀ (s : CatalogState) (records : List VoiceRecord) (v : String),
      (∀ r ∈ records, r.vidOk = true → r.voice_id.getD "" ≠ v) →
      (rebuildIndex s records).idToName v = s.idToName v ∧
      (rebuildIndex s records).idToLang v = s.idToLang v) ∧
    (∀ (s : CatalogState) (records : List VoiceRecord) (v : String),
      (∃ r ∈ records, r.vidOk = true ∧ r.voice_id.getD "" = v) →
      ∃ r' : VoiceRecord, r' ∈ records ∧ r'.vidOk = true ∧
        r'.voice_id.getD "" = v ∧
        (rebuildIndex s records).idToName v = some r'.name ∧
        (rebuildIndex s records).idToLang v = some r'.language) := by
  refine ⟨fun s s' records => ⟨rfl, rfl⟩, ?_, ?_⟩
  · intro s records v h
    exact foldl_updateMaps_notin records (s.idToName, s.idToLang) v h
  · intro s records v h
    exact foldl_updateMaps_mem records (s.idToName, s.idToLang) v h

/-- Witness for C9 (amended): id "1" (absent from the fresh records)
persists across the second rebuild, while the fetched id "2" is mapped
to Ivan. -/
theorem claim_C9_witness :
    (∀ r ∈ [recIvan], r.vidOk = true → r.voice_id.getD "" ≠ "1") ∧
    ((rebuildIndex (rebuildIndex CatalogState.init [recAnna]) [recIvan]).idToName "1" =
        (rebuildIndex CatalogState.init [recAnna]).idToName "1" ∧
      (rebuildIndex (rebuildIndex CatalogState.init [recAnna]) [recIvan]).idToLang "1" =
        (rebuildIndex CatalogState.init [recAnna]).idToLang "1") ∧
    (∃ r ∈ [recIvan], r.vidOk = true ∧ r.voice_id.getD "" = "2") ∧
    (∃ r' : VoiceRecord, r' ∈ [recIvan] ∧ r'.vidOk = true ∧
      r'.voice_id.getD "" = "2" ∧
      (rebuildIndex (rebuildIndex CatalogState.init [recAnna]) [recIvan]).idToName "2" =
        some r'.name ∧
      (rebuildIndex (rebuildIndex CatalogState.init [recAnna]) [recIvan]).idToLang "2" =
        some r'.language) :=
  ⟨by decide,
    claim_C9_index_rebuild.2.1 (rebuildIndex CatalogState.init [recAnna]) [recIvan] "1"
      (by decide),
    by decide,
    claim_C9_index_rebuild.2.2 (rebuildIndex CatalogState.init [recAnna]) [recIvan] "2"
      (by decide)⟩

end ZeroTTS
